import Mathlib

/-!
Shallow embedding of the task-orchestration core of the repository
(`src/processors/task.py`, class `TaskManager`).

Modelling conventions:
* Python in-place mutation becomes explicit state passing: every operation
  takes a `TM` state and returns the resulting state together with its
  Python result (`Except PyErr Bool` for methods that return `True` or
  raise).  An exception that propagates out of a method leaves the
  mutations executed before the `raise` in place, exactly as in Python,
  so the state component of an `.error` result is the (possibly
  partially mutated) state at the moment the exception was raised.
* `with self.lock` serializes the operations; each top-level call is
  modelled as one atomic state transformation.  `self.lock` is a
  non-reentrant `threading.Lock`, and `get_next_batch` re-acquires it by
  calling `self.update_task_status` while holding it (task.py:146
  re-enters task.py:99): that nested acquisition blocks forever, so a
  `get_next_batch` call that pops a pending record never returns.  Its
  model (`NBResult`) therefore distinguishes calls that return from
  calls that block.
* `uuid.uuid4()` is modelled by passing the drawn id as an explicit
  argument; freshness of the draw is a hypothesis where it matters.
* `datetime` fields (`created_at`, `updated_at`) and the opaque
  `video_info` payload are omitted: no modelled control flow reads them.
  `add_task` reads only `video_info.get("priority", 1)`, which is passed
  directly as the `priority` argument.
* `queue.PriorityQueue` over pairs `(-priority, task_id)` is modelled as
  a bag (list) of pairs; `get` removes a minimal pair under the
  lexicographic order Python uses on tuples (integer first, then string
  comparison on the task id).
-/

set_option maxHeartbeats 2000000

namespace VMZ

/-- Task dataclass from `task.py` (timestamps and the opaque
`video_info` payload omitted, see module comment). -/
structure Task where
  task_id : String
  priority : Int
  status : String := "pending"
  retry_count : Nat := 0
  progress : Int := 0
  error : Option String := none
deriving Repr, DecidableEq

/-- Python dict `status_counts` with its four fixed keys.  Values are
`Int`: the code can drive a counter negative. -/
structure Counts where
  pending : Int
  processing : Int
  completed : Int
  failed : Int
deriving Repr, DecidableEq

/-- Predicate for the four keys present in `status_counts`; indexing the
dict with any other string raises `KeyError`. -/
def validStatus (s : String) : Bool :=
  s = "pending" || s = "processing" || s = "completed" || s = "failed"

/-- Read `status_counts[s]`.  Call sites guard with `validStatus`
(a read of a missing key raises `KeyError`, modelled at the call site);
the final branch is never reached from guarded call sites. -/
def Counts.get (c : Counts) (s : String) : Int :=
  if s = "pending" then c.pending
  else if s = "processing" then c.processing
  else if s = "completed" then c.completed
  else if s = "failed" then c.failed
  else 0

/-- Write `status_counts[s] = v` for a valid key `s`. -/
def Counts.set (c : Counts) (s : String) (v : Int) : Counts :=
  if s = "pending" then { c with pending := v }
  else if s = "processing" then { c with processing := v }
  else if s = "completed" then { c with completed := v }
  else if s = "failed" then { c with failed := v }
  else c

/-- `status_counts[s] += d` for a valid key `s`. -/
def Counts.add (c : Counts) (s : String) (d : Int) : Counts :=
  c.set s (c.get s + d)

/-- Exceptions raised by `task.py`: `raise Exception(msg)` and the
`KeyError` raised by indexing `status_counts` with an unknown key. -/
inductive PyErr where
  | exn (msg : String)
  | keyError (key : String)
deriving Repr, DecidableEq

instance {α β : Type} [DecidableEq α] [DecidableEq β] :
    DecidableEq (Except α β) := fun x y =>
  match x, y with
  | .ok a, .ok b =>
    if h : a = b then isTrue (congrArg Except.ok h)
    else isFalse (fun hh => h (Except.ok.inj hh))
  | .error a, .error b =>
    if h : a = b then isTrue (congrArg Except.error h)
    else isFalse (fun hh => h (Except.error.inj hh))
  | .ok _, .error _ => isFalse (fun hh => Except.noConfusion hh)
  | .error _, .ok _ => isFalse (fun hh => Except.noConfusion hh)

/-- Python string comparison (lexicographic on code points), as a
boolean.  `a.data < b.data` is definitionally the order `a < b` of
`String`; it is phrased on the character lists so that it evaluates. -/
def strLtB (a b : String) : Bool := decide (a.data < b.data)

/-- Ordering used by Python's `PriorityQueue` on the stored pairs
`(-priority, task_id)`: tuple comparison, integer first, then the task
id string.  `keyLE a b` means `a <= b` in that order. -/
def keyLE (a b : Int × String) : Bool :=
  if a.1 < b.1 then true
  else if a.1 = b.1 then
    (if strLtB a.2 b.2 then true else if a.2 = b.2 then true else false)
  else false

/-- Minimum of `m` and the elements of a list under `keyLE` (the heap
root that `task_queue.get` returns). -/
def qminAux (m : Int × String) : List (Int × String) → Int × String
  | [] => m
  | x :: xs => qminAux (if keyLE m x then m else x) xs

/-- Remove the first occurrence of `m` from the list. -/
def removeFirst (q : List (Int × String)) (m : Int × String) : List (Int × String) :=
  match q with
  | [] => []
  | x :: xs => if x = m then xs else x :: removeFirst xs m

/-- `task_queue.get(block=False)`: remove and return a minimal pair, or
`none` when the queue is empty.  Pairs tied under the order are equal as
pairs, so removing the first occurrence of the minimum is faithful. -/
def queuePop (q : List (Int × String)) : Option ((Int × String) × List (Int × String)) :=
  match q with
  | [] => none
  | x :: xs =>
    let m := qminAux x xs
    some (m, removeFirst (x :: xs) m)

/-- Python dict `self.tasks` modelled as an insertion-ordered
association list. -/
def setTask (tasks : List (String × Task)) (id : String) (t : Task) :
    List (String × Task) :=
  tasks.map (fun p => if p.1 = id then (id, t) else p)

/-- Python `self.tasks[task_id] = task`: overwrite when the key exists,
append otherwise. -/
def dictInsert (tasks : List (String × Task)) (id : String) (t : Task) :
    List (String × Task) :=
  if (tasks.lookup id).isSome then setTask tasks id t else tasks ++ [(id, t)]

/-- State of a `TaskManager` instance: `batch_size` from the config,
the `tasks` dict, the priority queue contents, and `status_counts`.
The unused config fields `max_concurrent_downloads` and
`max_concurrent_processes` are omitted: no modelled operation reads
them. -/
structure TM where
  batch_size : Nat
  tasks : List (String × Task)
  queue : List (Int × String)
  counts : Counts
deriving Repr, DecidableEq

/-- `TaskManager.__init__`: empty store and queue, all counters zero. -/
def initTM (batch_size : Nat) : TM :=
  { batch_size := batch_size, tasks := [], queue := [],
    counts := { pending := 0, processing := 0, completed := 0, failed := 0 } }

/-- `TaskManager.add_task`: insert a fresh pending task, bump the
`pending` counter, push `(-priority, task_id)`.  The id is the uuid4
draw; `priority` is `video_info.get("priority", 1)`. -/
def add_task (s : TM) (task_id : String) (priority : Int) : TM × String :=
  let task : Task := { task_id := task_id, priority := priority }
  ({ s with
      tasks := dictInsert s.tasks task_id task,
      counts := s.counts.add "pending" 1,
      queue := s.queue ++ [(-priority, task_id)] },
   task_id)

/-- `TaskManager.get_task_status`. -/
def get_task_status (s : TM) (task_id : String) : Option String :=
  (s.tasks.lookup task_id).map Task.status

/-- `TaskManager.update_task_status`.  No transition validation: the
method decrements the counter of the current status, increments the
counter of the requested status (raising `KeyError` if the requested
string is not one of the four keys, with the decrement already
applied), then overwrites `task.status`. -/
def update_task_status (s : TM) (task_id status : String) : TM × Except PyErr Bool :=
  match s.tasks.lookup task_id with
  | none => (s, .error (.exn "任务不存在"))
  | some task =>
    if validStatus task.status then
      let s1 := { s with counts := s.counts.add task.status (-1) }
      if validStatus status then
        let s2 := { s1 with counts := s1.counts.add status 1 }
        ({ s2 with tasks := setTask s2.tasks task_id { task with status := status } },
         .ok true)
      else
        (s1, .error (.keyError status))
    else
      (s, .error (.keyError task.status))

/-- Outcome of a `get_next_batch` call.  `self.lock` is a non-reentrant
`threading.Lock` already held by `get_next_batch` (task.py:120), and the
loop calls `self.update_task_status` (task.py:146) whose first statement
re-acquires it (task.py:99).  Acquiring a held non-reentrant lock blocks
forever (the `except` clause catches nothing: no exception is raised),
so the call completes only along paths that never find a pending record:
  * `returns s batch pops`: the call returns `batch` having issued
    `pops` queue pops, leaving state `s`;
  * `blocked s tid pops`: the call popped the pending task `tid` and is
    blocked forever in the nested lock acquisition; `s` is the heap
    state at that instant (the pops applied, no record or counter
    touched — `update_task_status` blocks before its first mutation).
    The function never returns. -/
inductive NBResult where
  | returns (s : TM) (batch : List String) (pops : Nat)
  | blocked (s : TM) (tid : String) (pops : Nat)
deriving Repr, DecidableEq

/-- The pending task id a call is deadlocked on, if any. -/
def NBResult.blockedOn : NBResult → Option String
  | .blocked _ tid _ => some tid
  | .returns _ _ _ => none

/-- Loop body of `TaskManager.get_next_batch`.  `fuel` is the iteration
bound `min(current_queue_size, batch_size * 2)` fixed before the loop;
`batch` is accumulated in reverse; `seen` is the `seen_tasks` set;
`pops` is instrumentation only: it counts `task_queue.get` calls and is
read by no branch. -/
def nextBatchLoop : Nat → TM → List String → List String → Nat → NBResult
  | 0, s, batch, _, pops => .returns s batch.reverse pops
  | fuel + 1, s, batch, seen, pops =>
    if s.batch_size ≤ batch.length then .returns s batch.reverse pops
    else
      match queuePop s.queue with
      | none => .returns s batch.reverse pops
      | some ((negp, tid), q) =>
        if tid ∈ seen then
          nextBatchLoop fuel { s with queue := q } batch seen (pops + 1)
        else
          match s.tasks.lookup tid with
          | some task =>
            if task.status = "pending" then
              -- task.py:145 appends to the local `batch`, then task.py:146
              -- re-acquires the held non-reentrant lock: deadlock.
              .blocked { s with queue := q } tid (pops + 1)
            else
              nextBatchLoop fuel { s with queue := q ++ [(negp, tid)] }
                batch (tid :: seen) (pops + 1)
          | none => nextBatchLoop fuel { s with queue := q } batch
              (tid :: seen) (pops + 1)

/-- `TaskManager.get_next_batch`. -/
def get_next_batch (s : TM) : NBResult :=
  nextBatchLoop (min s.queue.length (s.batch_size * 2)) s [] [] 0

/-- `TaskManager.retry_failed_task`: only `failed` tasks may be
retried; on success reset to `pending`, bump `retry_count`, clear
`error`, adjust counters, re-push `(-priority, task_id)`. -/
def retry_failed_task (s : TM) (task_id : String) : TM × Except PyErr Bool :=
  match s.tasks.lookup task_id with
  | none => (s, .error (.exn "任务不存在"))
  | some task =>
    if task.status ≠ "failed" then
      (s, .error (.exn "只能重试失败的任务"))
    else
      let t1 : Task :=
        { task with
            status := "pending"
            retry_count := task.retry_count + 1
            error := none }
      ({ s with
          tasks := setTask s.tasks task_id t1,
          counts := (s.counts.add "failed" (-1)).add "pending" 1,
          queue := s.queue ++ [(-task.priority, task_id)] },
       .ok true)

/-- `TaskManager.update_task_progress`: clamp to `[0, 100]`. -/
def update_task_progress (s : TM) (task_id : String) (progress : Int) :
    TM × Except PyErr Bool :=
  match s.tasks.lookup task_id with
  | none => (s, .error (.exn "任务不存在"))
  | some task =>
    ({ s with
        tasks := setTask s.tasks task_id
          { task with progress := max 0 (min 100 progress) } },
     .ok true)

/-- `TaskManager.get_task_progress`. -/
def get_task_progress (s : TM) (task_id : String) : Int :=
  match s.tasks.lookup task_id with
  | none => 0
  | some task => task.progress

/-- `TaskManager.update_task_error`: record the message, force status
`failed`, decrement the `processing` counter, increment `failed` — with
no check of the current status. -/
def update_task_error (s : TM) (task_id error : String) : TM × Except PyErr Bool :=
  match s.tasks.lookup task_id with
  | none => (s, .error (.exn "任务不存在"))
  | some task =>
    let t1 : Task := { task with error := some error, status := "failed" }
    ({ s with
        tasks := setTask s.tasks task_id t1,
        counts := (s.counts.add "processing" (-1)).add "failed" 1 },
     .ok true)

/-- `TaskManager.get_task_error`. -/
def get_task_error (s : TM) (task_id : String) : Option String :=
  match s.tasks.lookup task_id with
  | none => none
  | some task => task.error

/-- `TaskManager.get_task_retry_count`. -/
def get_task_retry_count (s : TM) (task_id : String) : Nat :=
  match s.tasks.lookup task_id with
  | none => 0
  | some task => task.retry_count

/-- `TaskManager.cleanup_completed_tasks`: delete every `completed`
record, decrement the `completed` counter once per deleted record,
return the number deleted. -/
def cleanup_completed_tasks (s : TM) : TM × Nat :=
  let n := (s.tasks.filter (fun p => p.2.status = "completed")).length
  ({ s with
      tasks := s.tasks.filter (fun p => ¬ p.2.status = "completed"),
      counts := { s.counts with completed := s.counts.completed - n } },
   n)

/-- `TaskManager.get_task_stats` (a copy of `status_counts`). -/
def get_task_stats (s : TM) : Counts :=
  s.counts

/-- Number of live task records whose `status` field equals `st`. -/
def countStatus (tasks : List (String × Task)) (st : String) : Nat :=
  (tasks.filter (fun p => p.2.status = st)).length

/-- The spec's counter invariant: each maintained counter equals the
number of live records with that status. -/
def countersMatch (s : TM) : Prop :=
  ∀ st, validStatus st = true →
    s.counts.get st = (countStatus s.tasks st : Int)

/-- Sum of the four maintained counters, as returned by `stats()`. -/
def sumCounts (s : TM) : Int :=
  s.counts.pending + s.counts.processing + s.counts.completed + s.counts.failed

/-- One completed public `TaskManager` call, relating the state before
to the state after (mutations of a raising call retained, as in
Python).  The uuid4 draw of `add_task` is an arbitrary fresh id.  A
`get_next_batch` call contributes a transition only when it returns
(a blocked call never completes: the whole scheduler hangs on its held
lock and no further state is ever produced). -/
inductive Step : TM → TM → Prop where
  | add (s : TM) (id : String) (p : Int) (hfresh : s.tasks.lookup id = none) :
      Step s (add_task s id p).1
  | set_status (s : TM) (id st : String) : Step s (update_task_status s id st).1
  | next_batch (s s2 : TM) (batch : List String) (pops : Nat)
      (h : get_next_batch s = .returns s2 batch pops) : Step s s2
  | retry (s : TM) (id : String) : Step s (retry_failed_task s id).1
  | progress (s : TM) (id : String) (v : Int) :
      Step s (update_task_progress s id v).1
  | report_error (s : TM) (id msg : String) :
      Step s (update_task_error s id msg).1
  | cleanup (s : TM) : Step s (cleanup_completed_tasks s).1

/-- States reachable from a freshly constructed manager through the
public operations. -/
def Reachable (s : TM) : Prop :=
  ∃ bs, Relation.ReflTransGen Step (initTM bs) s

/-! Basic lemmas about the dictionary model. -/

theorem lookup_cons_eq {β : Type} (k : String) (v : β) (l : List (String × β)) :
    List.lookup k ((k, v) :: l) = some v := by
  simp [List.lookup]

theorem lookup_cons_ne {β : Type} {k k1 : String} (h : k ≠ k1) (v : β)
    (l : List (String × β)) :
    List.lookup k ((k1, v) :: l) = List.lookup k l := by
  simp [List.lookup, show (k == k1) = false from beq_eq_false_iff_ne.mpr h]

theorem length_setTask (l : List (String × Task)) (id : String) (t : Task) :
    (setTask l id t).length = l.length := by
  simp [setTask]

theorem setTask_cons (k : String) (v : Task) (tl : List (String × Task))
    (id : String) (t : Task) :
    setTask ((k, v) :: tl) id t =
      (if k = id then (id, t) else (k, v)) :: setTask tl id t := rfl

theorem lookup_setTask_self {l : List (String × Task)} {id : String} {t0 : Task}
    (t : Task) (h : l.lookup id = some t0) :
    (setTask l id t).lookup id = some t := by
  induction l with
  | nil => simp [List.lookup] at h
  | cons hd tl ih =>
    obtain ⟨k, v⟩ := hd
    rw [setTask_cons]
    by_cases hk : k = id
    · rw [if_pos hk]
      exact lookup_cons_eq id t (setTask tl id t)
    · have h1 : id ≠ k := fun hh => hk hh.symm
      rw [if_neg hk, lookup_cons_ne h1]
      rw [lookup_cons_ne h1] at h
      exact ih h

theorem lookup_setTask_ne {l : List (String × Task)} {id : String} {t : Task}
    {id1 : String} (h : id1 ≠ id) :
    (setTask l id t).lookup id1 = l.lookup id1 := by
  induction l with
  | nil => rfl
  | cons hd tl ih =>
    obtain ⟨k, v⟩ := hd
    rw [setTask_cons]
    by_cases hk : k = id
    · have h2 : id1 ≠ k := by rw [hk]; exact h
      rw [if_pos hk, lookup_cons_ne h, lookup_cons_ne h2]
      exact ih
    · rw [if_neg hk]
      by_cases h1 : id1 = k
      · subst h1
        rw [lookup_cons_eq, lookup_cons_eq]
      · rw [lookup_cons_ne h1, lookup_cons_ne h1]
        exact ih

/-! Characterization of each operation by the result of the dict lookup,
mirroring the branches of the Python methods. -/

theorem update_task_status_none {s : TM} {id : String} (st : String)
    (h : s.tasks.lookup id = none) :
    update_task_status s id st = (s, .error (.exn "任务不存在")) := by
  simp [update_task_status, h]

theorem update_task_status_some {s : TM} {id : String} {t : Task} (st : String)
    (h : s.tasks.lookup id = some t) (hts : validStatus t.status = true)
    (hst : validStatus st = true) :
    update_task_status s id st =
      ({ s with
          tasks := setTask s.tasks id { t with status := st },
          counts := (s.counts.add t.status (-1)).add st 1 }, .ok true) := by
  simp [update_task_status, h, hts, hst]

theorem update_task_status_badkey {s : TM} {id : String} {t : Task} {st : String}
    (h : s.tasks.lookup id = some t) (hts : validStatus t.status = true)
    (hst : validStatus st = false) :
    update_task_status s id st =
      ({ s with counts := s.counts.add t.status (-1) }, .error (.keyError st)) := by
  simp [update_task_status, h, hts, hst]

theorem update_task_error_none {s : TM} {id : String} (msg : String)
    (h : s.tasks.lookup id = none) :
    update_task_error s id msg = (s, .error (.exn "任务不存在")) := by
  simp [update_task_error, h]

theorem update_task_error_some {s : TM} {id : String} {t : Task} (msg : String)
    (h : s.tasks.lookup id = some t) :
    update_task_error s id msg =
      ({ s with
          tasks := setTask s.tasks id { t with status := "failed", error := some msg },
          counts := (s.counts.add "processing" (-1)).add "failed" 1 }, .ok true) := by
  simp [update_task_error, h]

theorem retry_failed_task_none {s : TM} {id : String}
    (h : s.tasks.lookup id = none) :
    retry_failed_task s id = (s, .error (.exn "任务不存在")) := by
  simp [retry_failed_task, h]

theorem retry_failed_task_not_failed {s : TM} {id : String} {t : Task}
    (h : s.tasks.lookup id = some t) (hnf : t.status ≠ "failed") :
    retry_failed_task s id = (s, .error (.exn "只能重试失败的任务")) := by
  simp [retry_failed_task, h, hnf]

theorem retry_failed_task_some {s : TM} {id : String} {t : Task}
    (h : s.tasks.lookup id = some t) (hf : t.status = "failed") :
    retry_failed_task s id =
      ({ s with
          tasks := setTask s.tasks id
            { t with
                status := "pending"
                retry_count := t.retry_count + 1
                error := none }
          counts := (s.counts.add "failed" (-1)).add "pending" 1
          queue := s.queue ++ [(-t.priority, id)] }, .ok true) := by
  simp [retry_failed_task, h, hf]

theorem update_task_progress_none {s : TM} {id : String} (v : Int)
    (h : s.tasks.lookup id = none) :
    update_task_progress s id v = (s, .error (.exn "任务不存在")) := by
  simp [update_task_progress, h]

theorem update_task_status_badrecord {s : TM} {id : String} {t : Task}
    (st : String) (h : s.tasks.lookup id = some t)
    (hts : validStatus t.status = false) :
    update_task_status s id st = (s, .error (.keyError t.status)) := by
  simp [update_task_status, h, hts]

theorem update_task_progress_some {s : TM} {id : String} {t : Task} (v : Int)
    (h : s.tasks.lookup id = some t) :
    update_task_progress s id v =
      ({ s with
          tasks := setTask s.tasks id
            { t with progress := max 0 (min 100 v) } }, .ok true) := by
  simp [update_task_progress, h]

/-! Claim C1. -/

/-- C1 counterexample: a task whose current status is `completed` is
moved to `processing` by `update_task_status` with result `True` — the
call does not fail with `InvalidTransition` and does not leave the
record unchanged, contrary to the claim. -/
theorem C1_counterexample :
    (update_task_status
      (update_task_status ((add_task (initTM 10) "t" 1).1) "t" "completed").1
      "t" "processing").2 = .ok true ∧
    get_task_status
      (update_task_status
        (update_task_status ((add_task (initTM 10) "t" 1).1) "t" "completed").1
        "t" "processing").1 "t" = some "processing" := by decide

/-- C1 (amended): `update_task_status` performs no transition
validation.  For every state, every existing task (with one of the four
statuses, as for all reachable records) and every requested status among
the four counter keys — along a legal edge or not — the call succeeds
with `True` and overwrites the status; only a missing id or a status
string outside the four keys makes it raise. -/
theorem C1_set_status_no_validation (s : TM) (id st : String) (t : Task)
    (hl : s.tasks.lookup id = some t) (hts : validStatus t.status = true)
    (hst : validStatus st = true) :
    (update_task_status s id st).2 = .ok true ∧
    get_task_status (update_task_status s id st).1 id = some st := by
  rw [update_task_status_some st hl hts hst]
  exact ⟨rfl, by simp [get_task_status, lookup_setTask_self _ hl]⟩

/-- C1 witness: the amended theorem applied to the concrete
`completed → processing` request. -/
theorem C1_witness :
    (update_task_status
      (update_task_status ((add_task (initTM 10) "t" 1).1) "t" "completed").1
      "t" "processing").2 = .ok true ∧
    get_task_status
      (update_task_status
        (update_task_status ((add_task (initTM 10) "t" 1).1) "t" "completed").1
        "t" "processing").1 "t" = some "processing" :=
  C1_set_status_no_validation _ "t" "processing"
    { task_id := "t", priority := 1, status := "completed" }
    (by decide) (by decide) (by decide)

/-! Claim C2. -/

/-- C2 counterexample: `update_task_status` on a pending task with the
status string `"bogus"` raises `KeyError` — a failing call — yet the
`pending` counter has been decremented from 1 to 0, so the failing
operation did apply a counter change. -/
theorem C2_counterexample :
    (update_task_status ((add_task (initTM 10) "t" 1).1) "t" "bogus").2 =
      .error (.keyError "bogus") ∧
    (update_task_status ((add_task (initTM 10) "t" 1).1) "t" "bogus").1 ≠
      (add_task (initTM 10) "t" 1).1 ∧
    (update_task_status ((add_task (initTM 10) "t" 1).1) "t" "bogus").1.counts.pending
      = 0 ∧
    ((add_task (initTM 10) "t" 1).1).counts.pending = 1 := by decide

/-- C2 (amended): every failing operation leaves the state exactly as it
was — except `update_task_status` called with a status string outside
the four counter keys, which raises `KeyError` after having decremented
the current-status counter.  With the requested status restricted to the
four keys, `update_task_status` is also atomic on failure. -/
theorem C2_atomic_on_failure (s : TM) (id st : String) (v : Int) (msg : String) :
    (validStatus st = true → ∀ e, (update_task_status s id st).2 = .error e →
      (update_task_status s id st).1 = s) ∧
    (∀ e, (update_task_error s id msg).2 = .error e →
      (update_task_error s id msg).1 = s) ∧
    (∀ e, (retry_failed_task s id).2 = .error e →
      (retry_failed_task s id).1 = s) ∧
    (∀ e, (update_task_progress s id v).2 = .error e →
      (update_task_progress s id v).1 = s) := by
  refine ⟨?_, ?_, ?_, ?_⟩
  · intro hst e he
    match hl : s.tasks.lookup id with
    | none => rw [update_task_status_none st hl]
    | some t =>
      cases hts : validStatus t.status with
      | true =>
        rw [update_task_status_some st hl hts hst] at he
        exact absurd he (by simp)
      | false => rw [update_task_status_badrecord st hl hts]
  · intro e he
    match hl : s.tasks.lookup id with
    | none => rw [update_task_error_none msg hl]
    | some t =>
      rw [update_task_error_some msg hl] at he
      exact absurd he (by simp)
  · intro e he
    match hl : s.tasks.lookup id with
    | none => rw [retry_failed_task_none hl]
    | some t =>
      by_cases hf : t.status = "failed"
      · rw [retry_failed_task_some hl hf] at he
        exact absurd he (by simp)
      · rw [retry_failed_task_not_failed hl hf]
  · intro e he
    match hl : s.tasks.lookup id with
    | none => rw [update_task_progress_none v hl]
    | some t =>
      rw [update_task_progress_some v hl] at he
      exact absurd he (by simp)

/-- C2 witness: the amended theorem applied to a concrete failing
`retry_failed_task` call on a pending task — the call fails and the
state is unchanged. -/
theorem C2_witness :
    (retry_failed_task ((add_task (initTM 10) "t" 1).1) "t").2 =
      .error (.exn "只能重试失败的任务") ∧
    (retry_failed_task ((add_task (initTM 10) "t" 1).1) "t").1 =
      (add_task (initTM 10) "t" 1).1 :=
  ⟨by decide,
   (C2_atomic_on_failure ((add_task (initTM 10) "t" 1).1) "t" "pending" 0 "m").2.2.1
     (.exn "只能重试失败的任务") (by decide)⟩

/-! Claim C3. -/

/-- C3 counterexample: `update_task_error` on a task whose status is
`pending` (not `processing`) does not fail with `InvalidTransition`: it
returns `True`, marks the task failed and drives the `processing`
counter to `-1`. -/
theorem C3_counterexample :
    get_task_status ((add_task (initTM 10) "t" 1).1) "t" = some "pending" ∧
    (update_task_error ((add_task (initTM 10) "t" 1).1) "t" "boom").2 = .ok true ∧
    (update_task_error ((add_task (initTM 10) "t" 1).1) "t" "boom").1.counts.processing
      = -1 := by decide

/-- C3 (amended): `update_task_error` checks nothing about the current
status.  A missing id raises (the `NotFound` case of the claim holds,
with no state change); for an existing task of any status it succeeds,
stores the message, forces status `failed`, decrements the `processing`
counter and increments the `failed` counter — even when the task was
never `processing`. -/
theorem C3_report_error_unchecked (s : TM) (id msg : String) :
    (s.tasks.lookup id = none →
      update_task_error s id msg = (s, .error (.exn "任务不存在"))) ∧
    (∀ t, s.tasks.lookup id = some t →
      (update_task_error s id msg).2 = .ok true ∧
      (update_task_error s id msg).1.tasks.lookup id =
        some { t with status := "failed", error := some msg } ∧
      (update_task_error s id msg).1.counts.processing = s.counts.processing - 1 ∧
      (update_task_error s id msg).1.counts.failed = s.counts.failed + 1 ∧
      (update_task_error s id msg).1.counts.pending = s.counts.pending ∧
      (update_task_error s id msg).1.counts.completed = s.counts.completed) := by
  constructor
  · intro h
    exact update_task_error_none msg h
  · intro t hl
    rw [update_task_error_some msg hl]
    refine ⟨rfl, lookup_setTask_self _ hl, ?_, ?_, ?_, ?_⟩ <;>
      simp [Counts.add, Counts.get, Counts.set] <;> omega

theorem lookup_nilStr {β : Type} (k : String) :
    List.lookup k ([] : List (String × β)) = none := rfl

/-! Structure of the two possible outcomes of the batch loop, used by
claims C4, C6, C7, C8, C9 and C10. -/

theorem nextBatchLoop_returns_spec (fuel : Nat) :
    ∀ (s : TM) (batch seen : List String) (pops : Nat) (s2 : TM)
      (b : List String) (p2 : Nat),
      nextBatchLoop fuel s batch seen pops = .returns s2 b p2 →
      b = batch.reverse ∧ s2.tasks = s.tasks ∧ s2.counts = s.counts ∧
        p2 ≤ pops + fuel := by
  induction fuel with
  | zero =>
    intro s batch seen pops s2 b p2 h
    rw [nextBatchLoop] at h
    cases h
    exact ⟨rfl, rfl, rfl, Nat.le_add_right _ _⟩
  | succ n ih =>
    intro s batch seen pops s2 b p2 h
    rw [nextBatchLoop] at h
    split at h
    · cases h
      exact ⟨rfl, rfl, rfl, by omega⟩
    · split at h
      · cases h
        exact ⟨rfl, rfl, rfl, by omega⟩
      · rename_i negp tid q heq
        split at h
        · obtain ⟨hb, ht, hc, hp⟩ := ih _ _ _ _ _ _ _ h
          exact ⟨hb, ht, hc, by omega⟩
        · split at h
          · split at h
            · simp at h
            · obtain ⟨hb, ht, hc, hp⟩ := ih _ _ _ _ _ _ _ h
              exact ⟨hb, ht, hc, by omega⟩
          · obtain ⟨hb, ht, hc, hp⟩ := ih _ _ _ _ _ _ _ h
            exact ⟨hb, ht, hc, by omega⟩

theorem nextBatchLoop_blocked_spec (fuel : Nat) :
    ∀ (s : TM) (batch seen : List String) (pops : Nat) (s2 : TM)
      (tid : String) (p2 : Nat),
      nextBatchLoop fuel s batch seen pops = .blocked s2 tid p2 →
      (∃ t, s.tasks.lookup tid = some t ∧ t.status = "pending") ∧
        s2.tasks = s.tasks ∧ s2.counts = s.counts ∧ p2 ≤ pops + fuel := by
  induction fuel with
  | zero =>
    intro s batch seen pops s2 tid p2 h
    rw [nextBatchLoop] at h
    cases h
  | succ n ih =>
    intro s batch seen pops s2 tid p2 h
    rw [nextBatchLoop] at h
    split at h
    · cases h
    · split at h
      · cases h
      · rename_i negp tid1 q heq
        split at h
        · obtain ⟨he, ht, hc, hp⟩ := ih _ _ _ _ _ _ _ h
          exact ⟨he, ht, hc, by omega⟩
        · split at h
          · rename_i task hlk
            split at h
            · rename_i hpend
              cases h
              exact ⟨⟨task, hlk, hpend⟩, rfl, rfl, by omega⟩
            · obtain ⟨he, ht, hc, hp⟩ := ih _ _ _ _ _ _ _ h
              exact ⟨he, ht, hc, by omega⟩
          · obtain ⟨he, ht, hc, hp⟩ := ih _ _ _ _ _ _ _ h
            exact ⟨he, ht, hc, by omega⟩

/-! Claim C5. -/

/-- C5 counterexample: `add_task` pushes the pair
`(-priority, task_id)` — there is no insertion-sequence component in
the key — and with two equal-priority tasks submitted in the order "b"
then "a", the queue yields "a" first: the tie is broken by the task-id
string, not by arrival order, so a drain cannot return the ids in
submission order. -/
theorem C5_counterexample :
    ((add_task ((add_task (initTM 2) "b" 1).1) "a" 1).1).queue =
      [(-1, "b"), (-1, "a")] ∧
    queuePop [(-1, "b"), (-1, "a")] = some ((-1, "a"), [(-1, "b")]) := by decide

/-- C5 (amended): the ordering key is `(-priority, task_id)`: among
equal priorities the queue pops ids in the lexicographic order of the
task-id strings (the uuid4 draws), regardless of submission order —
FIFO only by accident when the random ids happen to be sorted.  (No
order is observable through `get_next_batch` anyway: claiming a pending
task blocks the call forever, see C9.) -/
theorem C5_ties_by_id_order (id1 id2 : String) (p : Int) (h : id1 < id2) :
    queuePop ((add_task ((add_task (initTM 2) id1 p).1) id2 p).1).queue =
      some ((-p, id1), [(-p, id2)]) ∧
    queuePop ((add_task ((add_task (initTM 2) id2 p).1) id1 p).1).queue =
      some ((-p, id1), [(-p, id2)]) := by
  have hne : id1 ≠ id2 := ne_of_lt h
  have hd : id1.data < id2.data := String.lt_iff_toList_lt.mp h
  have h1 : strLtB id1 id2 = true := by simp [strLtB]; exact hd
  have h2 : strLtB id2 id1 = false := by simp [strLtB]; exact le_of_lt hd
  constructor <;>
    simp [add_task, initTM, queuePop, qminAux, keyLE, removeFirst,
      h1, h2, hne, Ne.symm hne]

/-- C5 witness: the amended theorem applied to the concrete ids of the
counterexample. -/
theorem C5_witness :
    queuePop ((add_task ((add_task (initTM 2) "a" 1).1) "b" 1).1).queue =
      some ((-1, "a"), [(-1, "b")]) ∧
    queuePop ((add_task ((add_task (initTM 2) "b" 1).1) "a" 1).1).queue =
      some ((-1, "a"), [(-1, "b")]) :=
  C5_ties_by_id_order "a" "b" 1 (String.lt_iff_toList_lt.mpr (by decide))

/-! Claim C9. -/

/-- C9: the drain the claim describes cannot happen.  After submitting
priorities 1, 10 and 5, `get_next_batch` pops the priority-10 id, finds
its record `pending`, and blocks forever re-acquiring the held
non-reentrant lock (task.py:146 re-enters task.py:99): the call never
returns `[b, c, a]` (or anything else).  The code contradicts the
spec's intent and its own test `test_task_priority`, which asserts on
the returned batch and would hang. -/
theorem C9_priority_drain_blocked :
    (get_next_batch
      ((add_task ((add_task ((add_task (initTM 3) "a" 1).1) "b" 10).1)
        "c" 5).1)).blockedOn = some "b" := by decide

/-! Claim C10. -/

/-- C10: within a single `get_next_batch` call each task id occurs at
most once in the returned batch.  This holds of the source, though
vacuously: the only branch that appends an id to the batch immediately
deadlocks on the nested non-reentrant lock, so every call that returns
at all returns the empty — hence duplicate-free — batch. -/
theorem C10_batch_nodup (s : TM) (s2 : TM) (b : List String) (p : Nat)
    (h : get_next_batch s = .returns s2 b p) : b.Nodup ∧ b = [] := by
  unfold get_next_batch at h
  obtain ⟨hb, -, -, -⟩ := nextBatchLoop_returns_spec _ _ _ _ _ _ _ _ h
  simp only [List.reverse_nil] at hb
  subst hb
  exact ⟨List.nodup_nil, rfl⟩

/-- C10 witness: a call on an empty manager returns, and its batch is
duplicate-free (and empty). -/
theorem C10_witness :
    get_next_batch (initTM 3) = .returns (initTM 3) [] 0 ∧
    ([] : List String).Nodup ∧ ([] : List String) = [] :=
  ⟨by decide, C10_batch_nodup (initTM 3) (initTM 3) [] 0 (by decide)⟩

/-! Arithmetic of the counter dictionary and the per-status record
counts, used for the counter invariants. -/

theorem validStatus_cases {st : String} (h : validStatus st = true) :
    st = "pending" ∨ st = "processing" ∨ st = "completed" ∨ st = "failed" := by
  have h2 := h
  simp [validStatus] at h2
  tauto

theorem Counts.get_add_self (c : Counts) {st : String}
    (h : validStatus st = true) (d : Int) :
    (c.add st d).get st = c.get st + d := by
  rcases validStatus_cases h with rfl | rfl | rfl | rfl <;>
    simp [Counts.add, Counts.get, Counts.set]

theorem Counts.get_add_ne (c : Counts) {st tau : String}
    (hst : validStatus st = true) (htau : validStatus tau = true)
    (hne : tau ≠ st) (d : Int) :
    (c.add st d).get tau = c.get tau := by
  rcases validStatus_cases hst with rfl | rfl | rfl | rfl <;>
    rcases validStatus_cases htau with rfl | rfl | rfl | rfl <;>
      simp_all [Counts.add, Counts.get, Counts.set]

theorem countStatus_nil (st : String) : countStatus [] st = 0 := rfl

theorem countStatus_cons (k : String) (v : Task) (l : List (String × Task))
    (st : String) :
    countStatus ((k, v) :: l) st =
      countStatus l st + (if v.status = st then 1 else 0) := by
  by_cases h : v.status = st <;> simp [countStatus, h]

theorem countStatus_append_single (l : List (String × Task)) (id : String)
    (t : Task) (st : String) :
    countStatus (l ++ [(id, t)]) st =
      countStatus l st + (if t.status = st then 1 else 0) := by
  by_cases h : t.status = st <;> simp [countStatus, List.filter_append, h]

theorem lookup_none_not_mem_keys {l : List (String × Task)} {id : String}
    (h : l.lookup id = none) : id ∉ l.map Prod.fst := by
  induction l with
  | nil => simp
  | cons hd tl ih =>
    obtain ⟨k, v⟩ := hd
    by_cases hk : id = k
    · subst hk
      rw [lookup_cons_eq] at h
      cases h
    · rw [lookup_cons_ne hk] at h
      simpa [hk] using ih h

theorem setTask_not_mem {l : List (String × Task)} {id : String} (u : Task)
    (h : id ∉ l.map Prod.fst) : setTask l id u = l := by
  induction l with
  | nil => rfl
  | cons hd tl ih =>
    obtain ⟨k, v⟩ := hd
    simp only [List.map_cons, List.mem_cons] at h
    push_neg at h
    rw [setTask_cons, if_neg (fun hh => h.1 hh.symm), ih h.2]

theorem setTask_map_fst (l : List (String × Task)) (id : String) (u : Task) :
    (setTask l id u).map Prod.fst = l.map Prod.fst := by
  induction l with
  | nil => rfl
  | cons hd tl ih =>
    obtain ⟨k, v⟩ := hd
    rw [setTask_cons]
    by_cases hk : k = id
    · subst hk
      simpa using ih
    · simpa [hk] using ih

theorem countStatus_setTask {l : List (String × Task)} {id : String} {t : Task}
    (u : Task) (st : String) (hnd : (l.map Prod.fst).Nodup)
    (hl : l.lookup id = some t) :
    countStatus (setTask l id u) st + (if t.status = st then 1 else 0) =
      countStatus l st + (if u.status = st then 1 else 0) := by
  induction l with
  | nil => cases hl
  | cons hd tl ih =>
    obtain ⟨k, v⟩ := hd
    simp only [List.map_cons, List.nodup_cons] at hnd
    rw [setTask_cons]
    by_cases hk : k = id
    · subst hk
      rw [lookup_cons_eq] at hl
      cases hl
      rw [if_pos rfl, setTask_not_mem u hnd.1, countStatus_cons, countStatus_cons]
      omega
    · have h1 : id ≠ k := fun hh => hk hh.symm
      rw [lookup_cons_ne h1] at hl
      rw [if_neg hk, countStatus_cons, countStatus_cons]
      have h2 := ih hnd.2 hl
      omega

theorem countStatus_cleanup_completed (l : List (String × Task)) :
    countStatus (l.filter (fun p => ¬ p.2.status = "completed")) "completed" = 0 := by
  induction l with
  | nil => rfl
  | cons hd tl ih =>
    obtain ⟨k, v⟩ := hd
    rw [List.filter_cons]
    by_cases h : v.status = "completed"
    · rw [if_neg (by simp [h])]
      exact ih
    · rw [if_pos (by simp [h]), countStatus_cons, ih, if_neg h]

theorem countStatus_cleanup_ne (l : List (String × Task)) {st : String}
    (h : st ≠ "completed") :
    countStatus (l.filter (fun p => ¬ p.2.status = "completed")) st =
      countStatus l st := by
  induction l with
  | nil => rfl
  | cons hd tl ih =>
    obtain ⟨k, v⟩ := hd
    rw [List.filter_cons]
    by_cases hc : v.status = "completed"
    · have hne : ¬ v.status = st := by rw [hc]; exact fun hh => h hh.symm
      rw [if_neg (by simp [hc]), countStatus_cons, ih]
      simp [hne]
    · rw [if_pos (by simp [hc]), countStatus_cons, countStatus_cons, ih]

theorem cleanup_partition_length (l : List (String × Task)) :
    (l.filter (fun p => p.2.status = "completed")).length +
      (l.filter (fun p => ¬ p.2.status = "completed")).length = l.length := by
  induction l with
  | nil => rfl
  | cons hd tl ih =>
    obtain ⟨k, v⟩ := hd
    rw [List.filter_cons, List.filter_cons]
    by_cases h : v.status = "completed"
    · rw [if_pos (by simp [h]), if_neg (by simp [h])]
      simp only [List.length_cons]
      omega
    · rw [if_neg (by simp [h]), if_pos (by simp [h])]
      simp only [List.length_cons]
      omega

/-! Claim C6. -/

/-- C6 counterexample, two conjuncts against the claim's description of
`get_next_batch`.  First, a popped id whose record still exists with
status `completed` is not discarded: the call completes with an empty
batch and the entry is back in the queue (the code re-pushes it), so
the state after the call equals the state before it.  Second, a popped
id whose record is `pending` is not "atomically transitioned to
`processing` and included in the returned batch": the call blocks
forever on the nested non-reentrant lock while claiming it, and never
returns a batch at all. -/
theorem C6_counterexample :
    get_next_batch
      ((update_task_status ((add_task (initTM 10) "t" 1).1) "t" "completed").1) =
      NBResult.returns
        ((update_task_status ((add_task (initTM 10) "t" 1).1) "t" "completed").1)
        [] 1 ∧
    ((update_task_status ((add_task (initTM 10) "t" 1).1)
      "t" "completed").1).queue = [(-1, "t")] ∧
    (get_next_batch ((add_task (initTM 10) "u" 1).1)).blockedOn = some "u" := by
  decide

/-- C6 (amended): a `get_next_batch` call pops at most
`min(queue.size, 2 * batch_size)` entries in either outcome.  A popped
id with no record is dropped; one whose record exists with a
non-`pending` status is pushed back onto the queue, not discarded; a
duplicate already seen in the same call is dropped.  A popped `pending`
id makes the call block forever re-acquiring the held non-reentrant
lock (task.py:146 re-enters task.py:99): it is neither transitioned to
`processing` nor returned.  Hence every call that returns at all
returns an empty batch and leaves every task record and every counter
exactly unchanged (only the queue changes); and a blocked call has
popped a genuinely pending id, with records and counters untouched at
the instant of blocking. -/
theorem C6_next_batch_scan (s : TM) :
    (∀ (s2 : TM) (b : List String) (p : Nat),
      get_next_batch s = .returns s2 b p →
      b = [] ∧ s2.tasks = s.tasks ∧ s2.counts = s.counts ∧
        p ≤ min s.queue.length (s.batch_size * 2)) ∧
    (∀ (s2 : TM) (tid : String) (p : Nat),
      get_next_batch s = .blocked s2 tid p →
      (∃ t, s.tasks.lookup tid = some t ∧ t.status = "pending") ∧
        s2.tasks = s.tasks ∧ s2.counts = s.counts ∧
        p ≤ min s.queue.length (s.batch_size * 2)) := by
  constructor
  · intro s2 b p h
    unfold get_next_batch at h
    obtain ⟨hb, ht, hc, hp⟩ := nextBatchLoop_returns_spec _ _ _ _ _ _ _ _ h
    simp only [List.reverse_nil] at hb
    exact ⟨hb, ht, hc, by omega⟩
  · intro s2 tid p h
    unfold get_next_batch at h
    obtain ⟨he, ht, hc, hp⟩ := nextBatchLoop_blocked_spec _ _ _ _ _ _ _ _ h
    exact ⟨he, ht, hc, by omega⟩

/-- C6 witness: the amended theorem applied at both outcomes — a
completing call on a stale `completed` entry, and a blocked call on a
pending task. -/
theorem C6_witness :
    (([] : List String) = [] ∧
      ((update_task_status ((add_task (initTM 10) "t" 1).1)
        "t" "completed").1).tasks =
        ((update_task_status ((add_task (initTM 10) "t" 1).1)
          "t" "completed").1).tasks ∧
      ((update_task_status ((add_task (initTM 10) "t" 1).1)
        "t" "completed").1).counts =
        ((update_task_status ((add_task (initTM 10) "t" 1).1)
          "t" "completed").1).counts ∧
      1 ≤ min
        ((update_task_status ((add_task (initTM 10) "t" 1).1)
          "t" "completed").1).queue.length
        (((update_task_status ((add_task (initTM 10) "t" 1).1)
          "t" "completed").1).batch_size * 2)) ∧
    ((∃ t, ((add_task (initTM 10) "u" 1).1).tasks.lookup "u" = some t ∧
        t.status = "pending") ∧
      ({ (add_task (initTM 10) "u" 1).1 with
          queue := ([] : List (Int × String)) }).tasks =
        ((add_task (initTM 10) "u" 1).1).tasks ∧
      ({ (add_task (initTM 10) "u" 1).1 with
          queue := ([] : List (Int × String)) }).counts =
        ((add_task (initTM 10) "u" 1).1).counts ∧
      1 ≤ min ((add_task (initTM 10) "u" 1).1).queue.length
        (((add_task (initTM 10) "u" 1).1).batch_size * 2)) :=
  ⟨(C6_next_batch_scan
      ((update_task_status ((add_task (initTM 10) "t" 1).1) "t" "completed").1)).1
      ((update_task_status ((add_task (initTM 10) "t" 1).1) "t" "completed").1)
      [] 1 (by decide),
   (C6_next_batch_scan ((add_task (initTM 10) "u" 1).1)).2
      { (add_task (initTM 10) "u" 1).1 with queue := ([] : List (Int × String)) }
      "u" 1 (by decide)⟩

/-! Claim C8. -/

/-- C8: the record-level half of the retry round trip holds, the
`next_batch` half cannot.  With a single task moved to `processing`,
after `update_task_error` then `retry_failed_task` the record is
`pending` with `retry_count = 1` and no error — but the subsequent
`get_next_batch` pops the retried pending id and blocks forever
re-acquiring the held non-reentrant lock (task.py:146 re-enters
task.py:99): it never returns the id.  The spec's intent (and the
repo's hanging test `test_get_next_batch`) make this a defect of the
code, not of the claim. -/
theorem C8_retry_blocked :
    get_task_status
      ((retry_failed_task
        ((update_task_error
          ((update_task_status ((add_task (initTM 1) "t" 7).1)
            "t" "processing").1) "t" "oops").1) "t").1) "t" = some "pending" ∧
    get_task_retry_count
      ((retry_failed_task
        ((update_task_error
          ((update_task_status ((add_task (initTM 1) "t" 7).1)
            "t" "processing").1) "t" "oops").1) "t").1) "t" = 1 ∧
    get_task_error
      ((retry_failed_task
        ((update_task_error
          ((update_task_status ((add_task (initTM 1) "t" 7).1)
            "t" "processing").1) "t" "oops").1) "t").1) "t" = none ∧
    (get_next_batch
      ((retry_failed_task
        ((update_task_error
          ((update_task_status ((add_task (initTM 1) "t" 7).1)
            "t" "processing").1) "t" "oops").1) "t").1)).blockedOn =
      some "t" := by decide

/-! Claims C4 and C7: counter invariants over reachable states. -/

/-- Keys of the task dict are pairwise distinct (Python dict keys). -/
def keysNodup (s : TM) : Prop := (s.tasks.map Prod.fst).Nodup

/-- Every live record carries one of the four statuses (no assignment of
an invalid status ever completes, so this holds in every reachable
state). -/
def statusesValid (s : TM) : Prop :=
  ∀ p ∈ s.tasks, validStatus p.2.status = true

/-- Combined invariant used to prove the counter property. -/
def TMInv (s : TM) : Prop := keysNodup s ∧ statusesValid s ∧ countersMatch s

/-- Totalled counters (the sum `stats()` callers would compute). -/
def Counts.total (c : Counts) : Int :=
  c.pending + c.processing + c.completed + c.failed

theorem Counts.total_add (c : Counts) {st : String}
    (h : validStatus st = true) (d : Int) :
    (c.add st d).total = c.total + d := by
  rcases validStatus_cases h with rfl | rfl | rfl | rfl <;>
    simp [Counts.add, Counts.get, Counts.set, Counts.total] <;> omega

/-- Sum invariant: the four counters sum to the number of live records. -/
def sumOK (s : TM) : Prop := s.counts.total = (s.tasks.length : Int)

theorem dictInsert_fresh {tasks : List (String × Task)} {id : String} (t : Task)
    (h : tasks.lookup id = none) : dictInsert tasks id t = tasks ++ [(id, t)] := by
  simp [dictInsert, h]

theorem lookup_some_mem {l : List (String × Task)} {id : String} {t : Task}
    (h : l.lookup id = some t) : (id, t) ∈ l := by
  induction l with
  | nil => cases h
  | cons hd tl ih =>
    obtain ⟨k, v⟩ := hd
    by_cases hk : id = k
    · subst hk
      rw [lookup_cons_eq] at h
      cases h
      exact List.mem_cons_self _ _
    · rw [lookup_cons_ne hk] at h
      exact List.mem_cons_of_mem _ (ih h)

theorem mem_setTask {l : List (String × Task)} {id : String} {u : Task}
    {p : String × Task} (h : p ∈ setTask l id u) : p = (id, u) ∨ p ∈ l := by
  simp only [setTask, List.mem_map] at h
  obtain ⟨q, hq, hqe⟩ := h
  by_cases h1 : q.1 = id
  · rw [if_pos h1] at hqe
    exact Or.inl hqe.symm
  · rw [if_neg h1] at hqe
    exact Or.inr (hqe ▸ hq)

/-- `StepV`: a public call whose `update_task_status` argument is one of
the four statuses (rules out only the `KeyError` path). -/
inductive StepV : TM → TM → Prop where
  | add (s : TM) (id : String) (p : Int) (hfresh : s.tasks.lookup id = none) :
      StepV s (add_task s id p).1
  | set_status (s : TM) (id st : String) (hst : validStatus st = true) :
      StepV s (update_task_status s id st).1
  | next_batch (s s2 : TM) (batch : List String) (pops : Nat)
      (h : get_next_batch s = .returns s2 batch pops) : StepV s s2
  | retry (s : TM) (id : String) : StepV s (retry_failed_task s id).1
  | progress (s : TM) (id : String) (v : Int) :
      StepV s (update_task_progress s id v).1
  | report_error (s : TM) (id msg : String) :
      StepV s (update_task_error s id msg).1
  | cleanup (s : TM) : StepV s (cleanup_completed_tasks s).1

/-- `StepOK`: as `StepV`, and additionally `update_task_error` is only
invoked on ids whose record (if any) is currently `processing` — the
legal use the spec prescribes for `report_error`. -/
inductive StepOK : TM → TM → Prop where
  | add (s : TM) (id : String) (p : Int) (hfresh : s.tasks.lookup id = none) :
      StepOK s (add_task s id p).1
  | set_status (s : TM) (id st : String) (hst : validStatus st = true) :
      StepOK s (update_task_status s id st).1
  | next_batch (s s2 : TM) (batch : List String) (pops : Nat)
      (h : get_next_batch s = .returns s2 batch pops) : StepOK s s2
  | retry (s : TM) (id : String) : StepOK s (retry_failed_task s id).1
  | progress (s : TM) (id : String) (v : Int) :
      StepOK s (update_task_progress s id v).1
  | report_error (s : TM) (id msg : String)
      (hproc : ∀ t, s.tasks.lookup id = some t → t.status = "processing") :
      StepOK s (update_task_error s id msg).1
  | cleanup (s : TM) : StepOK s (cleanup_completed_tasks s).1

/-- Any property of the task store and the counters transfers along a
completing `get_next_batch` call, which changes neither (only the queue
is mutated; the branch that would mutate them blocks forever). -/
theorem sumOK_of_components {s s2 : TM} (ht : s2.tasks = s.tasks)
    (hc : s2.counts = s.counts) (h : sumOK s) : sumOK s2 := by
  show s2.counts.total = (s2.tasks.length : Int)
  rw [ht, hc]
  exact h

/-! Preservation of the sum invariant (claim C7). -/

theorem sumOK_add {s : TM} (id : String) (p : Int)
    (hfresh : s.tasks.lookup id = none) (h : sumOK s) :
    sumOK (add_task s id p).1 := by
  show ((s.counts.add "pending" 1)).total =
    ((dictInsert s.tasks id { task_id := id, priority := p }).length : Int)
  rw [Counts.total_add _ (show validStatus "pending" = true from rfl),
    dictInsert_fresh _ hfresh]
  simp only [List.length_append, List.length_cons, List.length_nil]
  rw [sumOK] at h
  omega

theorem sumOK_update_status {s : TM} (id st : String)
    (hst : validStatus st = true) (h : sumOK s) :
    sumOK (update_task_status s id st).1 := by
  cases hl : s.tasks.lookup id with
  | none => rw [update_task_status_none st hl]; exact h
  | some t =>
    cases hts : validStatus t.status with
    | false => rw [update_task_status_badrecord st hl hts]; exact h
    | true =>
      rw [update_task_status_some st hl hts hst]
      show ((s.counts.add t.status (-1)).add st 1).total =
        ((setTask s.tasks id { t with status := st }).length : Int)
      rw [Counts.total_add _ hst, Counts.total_add _ hts, length_setTask]
      rw [sumOK] at h
      omega

theorem sumOK_update_error {s : TM} (id msg : String) (h : sumOK s) :
    sumOK (update_task_error s id msg).1 := by
  cases hl : s.tasks.lookup id with
  | none => rw [update_task_error_none msg hl]; exact h
  | some t =>
    rw [update_task_error_some msg hl]
    show ((s.counts.add "processing" (-1)).add "failed" 1).total =
      ((setTask s.tasks id
        { t with status := "failed", error := some msg }).length : Int)
    rw [Counts.total_add _ (show validStatus "failed" = true from rfl),
      Counts.total_add _ (show validStatus "processing" = true from rfl),
      length_setTask]
    rw [sumOK] at h
    omega

theorem sumOK_retry {s : TM} (id : String) (h : sumOK s) :
    sumOK (retry_failed_task s id).1 := by
  cases hl : s.tasks.lookup id with
  | none => rw [retry_failed_task_none hl]; exact h
  | some t =>
    by_cases hf : t.status = "failed"
    · rw [retry_failed_task_some hl hf]
      show ((s.counts.add "failed" (-1)).add "pending" 1).total =
        ((setTask s.tasks id
          { t with
              status := "pending"
              retry_count := t.retry_count + 1
              error := none }).length : Int)
      rw [Counts.total_add _ (show validStatus "pending" = true from rfl),
        Counts.total_add _ (show validStatus "failed" = true from rfl),
        length_setTask]
      rw [sumOK] at h
      omega
    · rw [retry_failed_task_not_failed hl hf]; exact h

theorem sumOK_progress {s : TM} (id : String) (v : Int) (h : sumOK s) :
    sumOK (update_task_progress s id v).1 := by
  cases hl : s.tasks.lookup id with
  | none => rw [update_task_progress_none v hl]; exact h
  | some t =>
    rw [update_task_progress_some v hl]
    show s.counts.total =
      ((setTask s.tasks id
        { t with progress := max 0 (min 100 v) }).length : Int)
    rw [length_setTask]
    exact h

theorem sumOK_cleanup {s : TM} (h : sumOK s) :
    sumOK (cleanup_completed_tasks s).1 := by
  have hpart := cleanup_partition_length s.tasks
  rw [sumOK] at h
  simp only [cleanup_completed_tasks, sumOK, Counts.total] at h ⊢
  omega

theorem StepV_preserves_sumOK {s1 s2 : TM} (h : StepV s1 s2) (hp : sumOK s1) :
    sumOK s2 := by
  cases h with
  | add id p hfresh => exact sumOK_add id p hfresh hp
  | set_status id st hst => exact sumOK_update_status id st hst hp
  | next_batch =>
    rename_i batch pops heq
    unfold get_next_batch at heq
    obtain ⟨-, ht, hc, -⟩ := nextBatchLoop_returns_spec _ _ _ _ _ _ _ _ heq
    exact sumOK_of_components ht hc hp
  | retry id => exact sumOK_retry id hp
  | progress id v => exact sumOK_progress id v hp
  | report_error id msg => exact sumOK_update_error id msg hp
  | cleanup => exact sumOK_cleanup hp

/-- C7 counterexample: `update_task_status` with the status string
`"bogus"` is a public operation call; it raises `KeyError` after
decrementing the `pending` counter, leaving a reachable state whose
counters sum to 0 while one live record exists. -/
theorem C7_counterexample :
    Reachable (update_task_status ((add_task (initTM 10) "t" 1).1) "t" "bogus").1 ∧
    sumCounts (update_task_status ((add_task (initTM 10) "t" 1).1) "t" "bogus").1 = 0 ∧
    ((update_task_status ((add_task (initTM 10) "t" 1).1) "t" "bogus").1).tasks.length
      = 1 := by
  refine ⟨⟨10, ?_⟩, by decide, by decide⟩
  exact Relation.ReflTransGen.tail
    (Relation.ReflTransGen.tail Relation.ReflTransGen.refl
      (Step.add (initTM 10) "t" 1 rfl))
    (Step.set_status _ "t" "bogus")

/-- C7 (amended): in every state reachable through the public
operations with `update_task_status` restricted to the four status
strings (the `StepV` relation; an out-of-vocabulary status raises
`KeyError` mid-update and breaks the equality, see the counterexample),
the sum of the four counters returned by `get_task_stats` equals the
number of live task records. -/
theorem C7_sum_counts_eq_records (bs : Nat) (s : TM)
    (h : Relation.ReflTransGen StepV (initTM bs) s) :
    sumCounts s = (s.tasks.length : Int) := by
  have hinv : sumOK s := by
    induction h with
    | refl => rfl
    | tail h1 h2 ih => exact StepV_preserves_sumOK h2 ih
  exact hinv

/-- C7 witness: the amended theorem applied to the concrete state
reached by one fresh submission. -/
theorem C7_witness :
    sumCounts (add_task (initTM 5) "a" 2).1 =
      (((add_task (initTM 5) "a" 2).1).tasks.length : Int) :=
  C7_sum_counts_eq_records 5 (add_task (initTM 5) "a" 2).1
    (Relation.ReflTransGen.tail Relation.ReflTransGen.refl
      (StepV.add (initTM 5) "a" 2 rfl))

/-! Preservation of the per-status counter invariant (claim C4). -/

theorem inv_init (bs : Nat) : TMInv (initTM bs) := by
  refine ⟨by simp [keysNodup, initTM], ?_, ?_⟩
  · intro p hp
    cases hp
  · intro σ hσ
    rcases validStatus_cases hσ with rfl | rfl | rfl | rfl <;>
      simp [initTM, Counts.get, countStatus]

theorem inv_add {s : TM} (id : String) (p : Int)
    (hfresh : s.tasks.lookup id = none) (h : TMInv s) :
    TMInv (add_task s id p).1 := by
  obtain ⟨hnd, hsv, hcm⟩ := h
  have hmem := lookup_none_not_mem_keys hfresh
  refine ⟨?_, ?_, ?_⟩
  · show ((dictInsert s.tasks id
      { task_id := id, priority := p }).map Prod.fst).Nodup
    rw [dictInsert_fresh _ hfresh, List.map_append]
    refine List.Nodup.append hnd (List.nodup_singleton id) ?_
    intro a ha hb
    rw [List.map_singleton, List.mem_singleton] at hb
    subst hb
    exact hmem ha
  · intro q hq
    show validStatus q.2.status = true
    rw [show (add_task s id p).1.tasks =
      dictInsert s.tasks id { task_id := id, priority := p } from rfl,
      dictInsert_fresh _ hfresh] at hq
    rcases List.mem_append.mp hq with h1 | h1
    · exact hsv q h1
    · rw [List.mem_singleton] at h1
      subst h1
      rfl
  · intro σ hσ
    have hold := hcm σ hσ
    show (s.counts.add "pending" 1).get σ =
      ((countStatus (dictInsert s.tasks id
        { task_id := id, priority := p }) σ : Nat) : Int)
    rw [dictInsert_fresh _ hfresh, countStatus_append_single]
    have hst0 : ({ task_id := id, priority := p } : Task).status = "pending" := rfl
    rcases validStatus_cases hσ with rfl | rfl | rfl | rfl
    · simp [hst0, Counts.add, Counts.get, Counts.set] at hold ⊢
      omega
    · simp [hst0, Counts.add, Counts.get, Counts.set] at hold ⊢
      rw [if_neg (show ¬ ("pending" : String) = "processing" from by decide)]
      omega
    · simp [hst0, Counts.add, Counts.get, Counts.set] at hold ⊢
      rw [if_neg (show ¬ ("pending" : String) = "completed" from by decide)]
      omega
    · simp [hst0, Counts.add, Counts.get, Counts.set] at hold ⊢
      rw [if_neg (show ¬ ("pending" : String) = "failed" from by decide)]
      omega

theorem inv_update_status {s : TM} (id st : String)
    (hst : validStatus st = true) (h : TMInv s) :
    TMInv (update_task_status s id st).1 := by
  obtain ⟨hnd, hsv, hcm⟩ := h
  cases hl : s.tasks.lookup id with
  | none =>
    rw [update_task_status_none st hl]
    exact ⟨hnd, hsv, hcm⟩
  | some t =>
    have hts : validStatus t.status = true := hsv _ (lookup_some_mem hl)
    rw [update_task_status_some st hl hts hst]
    refine ⟨?_, ?_, ?_⟩
    · show ((setTask s.tasks id { t with status := st }).map Prod.fst).Nodup
      rw [setTask_map_fst]
      exact hnd
    · intro q hq
      rcases mem_setTask hq with hq1 | hq1
      · subst hq1
        simpa using hst
      · exact hsv q hq1
    · intro σ hσ
      have hold := hcm σ hσ
      have hcnt := countStatus_setTask { t with status := st } σ hnd hl
      show ((s.counts.add t.status (-1)).add st 1).get σ =
        ((countStatus (setTask s.tasks id { t with status := st }) σ : Nat) : Int)
      rcases validStatus_cases hσ with rfl | rfl | rfl | rfl <;>
        rcases validStatus_cases hst with rfl | rfl | rfl | rfl <;>
          rcases validStatus_cases hts with ht1 | ht1 | ht1 | ht1 <;>
            simp [Counts.add, Counts.get, Counts.set, ht1] at hold hcnt ⊢ <;>
              omega

theorem inv_update_error {s : TM} (id msg : String)
    (hproc : ∀ t, s.tasks.lookup id = some t → t.status = "processing")
    (h : TMInv s) : TMInv (update_task_error s id msg).1 := by
  obtain ⟨hnd, hsv, hcm⟩ := h
  cases hl : s.tasks.lookup id with
  | none =>
    rw [update_task_error_none msg hl]
    exact ⟨hnd, hsv, hcm⟩
  | some t =>
    have hpt : t.status = "processing" := hproc t hl
    rw [update_task_error_some msg hl]
    refine ⟨?_, ?_, ?_⟩
    · show ((setTask s.tasks id
        { t with status := "failed", error := some msg }).map Prod.fst).Nodup
      rw [setTask_map_fst]
      exact hnd
    · intro q hq
      rcases mem_setTask hq with hq1 | hq1
      · subst hq1
        rfl
      · exact hsv q hq1
    · intro σ hσ
      have hold := hcm σ hσ
      have hcnt := countStatus_setTask
        { t with status := "failed", error := some msg } σ hnd hl
      show ((s.counts.add "processing" (-1)).add "failed" 1).get σ =
        ((countStatus (setTask s.tasks id
          { t with status := "failed", error := some msg }) σ : Nat) : Int)
      rcases validStatus_cases hσ with rfl | rfl | rfl | rfl <;>
        simp [Counts.add, Counts.get, Counts.set, hpt] at hold hcnt ⊢ <;> omega

theorem inv_retry {s : TM} (id : String) (h : TMInv s) :
    TMInv (retry_failed_task s id).1 := by
  obtain ⟨hnd, hsv, hcm⟩ := h
  cases hl : s.tasks.lookup id with
  | none =>
    rw [retry_failed_task_none hl]
    exact ⟨hnd, hsv, hcm⟩
  | some t =>
    by_cases hf : t.status = "failed"
    · rw [retry_failed_task_some hl hf]
      refine ⟨?_, ?_, ?_⟩
      · show ((setTask s.tasks id
          { t with
              status := "pending"
              retry_count := t.retry_count + 1
              error := none }).map Prod.fst).Nodup
        rw [setTask_map_fst]
        exact hnd
      · intro q hq
        rcases mem_setTask hq with hq1 | hq1
        · subst hq1
          rfl
        · exact hsv q hq1
      · intro σ hσ
        have hold := hcm σ hσ
        have hcnt := countStatus_setTask
          { t with
              status := "pending"
              retry_count := t.retry_count + 1
              error := none } σ hnd hl
        show ((s.counts.add "failed" (-1)).add "pending" 1).get σ =
          ((countStatus (setTask s.tasks id
            { t with
                status := "pending"
                retry_count := t.retry_count + 1
                error := none }) σ : Nat) : Int)
        rcases validStatus_cases hσ with rfl | rfl | rfl | rfl <;>
          simp [Counts.add, Counts.get, Counts.set, hf] at hold hcnt ⊢ <;> omega
    · rw [retry_failed_task_not_failed hl hf]
      exact ⟨hnd, hsv, hcm⟩

theorem inv_progress {s : TM} (id : String) (v : Int) (h : TMInv s) :
    TMInv (update_task_progress s id v).1 := by
  obtain ⟨hnd, hsv, hcm⟩ := h
  cases hl : s.tasks.lookup id with
  | none =>
    rw [update_task_progress_none v hl]
    exact ⟨hnd, hsv, hcm⟩
  | some t =>
    rw [update_task_progress_some v hl]
    refine ⟨?_, ?_, ?_⟩
    · show ((setTask s.tasks id
        { t with progress := max 0 (min 100 v) }).map Prod.fst).Nodup
      rw [setTask_map_fst]
      exact hnd
    · intro q hq
      rcases mem_setTask hq with hq1 | hq1
      · subst hq1
        exact hsv (id, t) (lookup_some_mem hl)
      · exact hsv q hq1
    · intro σ hσ
      have hold := hcm σ hσ
      have hcnt := countStatus_setTask
        { t with progress := max 0 (min 100 v) } σ hnd hl
      have hps : ({ t with progress := max 0 (min 100 v) } : Task).status =
          t.status := rfl
      rw [hps] at hcnt
      have hcc : countStatus (setTask s.tasks id
          { t with progress := max 0 (min 100 v) }) σ =
          countStatus s.tasks σ := by omega
      show s.counts.get σ =
        ((countStatus (setTask s.tasks id
          { t with progress := max 0 (min 100 v) }) σ : Nat) : Int)
      rw [hcc]
      exact hold

theorem inv_cleanup {s : TM} (h : TMInv s) :
    TMInv (cleanup_completed_tasks s).1 := by
  obtain ⟨hnd, hsv, hcm⟩ := h
  have hform : (cleanup_completed_tasks s).1 =
      { s with
          tasks := s.tasks.filter (fun (p : String × Task) => ¬ p.2.status = "completed")
          counts := { s.counts with
            completed := s.counts.completed -
              ((s.tasks.filter
                (fun (p : String × Task) => p.2.status = "completed")).length : Int) } } :=
    rfl
  rw [hform]
  refine ⟨?_, ?_, ?_⟩
  · show (((s.tasks.filter
      (fun (p : String × Task) => ¬ p.2.status = "completed")).map
      Prod.fst)).Nodup
    exact List.Nodup.sublist (List.Sublist.map _ (List.filter_sublist _)) hnd
  · intro q hq
    exact hsv q (List.mem_of_mem_filter hq)
  · intro σ hσ
    have hold := hcm σ hσ
    by_cases hc : σ = "completed"
    · subst hc
      have hcompl := hcm "completed" rfl
      show ({ s.counts with
          completed := s.counts.completed -
            ((s.tasks.filter
              (fun (p : String × Task) =>
                p.2.status = "completed")).length : Int) }).get "completed" =
        ((countStatus (s.tasks.filter
          (fun (p : String × Task) =>
            ¬ p.2.status = "completed")) "completed" : Nat) : Int)
      rw [countStatus_cleanup_completed]
      have hgc : ∀ c : Counts, c.get "completed" = c.completed := fun c => rfl
      show s.counts.completed -
          ((s.tasks.filter
            (fun (p : String × Task) => p.2.status = "completed")).length : Int) =
        ((0 : Nat) : Int)
      rw [hgc] at hcompl
      simp only [countStatus] at hcompl
      omega
    · have hcnt := countStatus_cleanup_ne s.tasks hc
      rw [hcnt]
      rcases validStatus_cases hσ with rfl | rfl | rfl | rfl <;>
        simp [Counts.get] at hold ⊢ <;> first | omega | exact absurd rfl hc

/-- The combined invariant transfers along a completing
`get_next_batch` call, which changes neither the task store nor the
counters. -/
theorem TMInv_of_components {s s2 : TM} (ht : s2.tasks = s.tasks)
    (hc : s2.counts = s.counts) (h : TMInv s) : TMInv s2 := by
  obtain ⟨hnd, hsv, hcm⟩ := h
  refine ⟨?_, ?_, ?_⟩
  · show (s2.tasks.map Prod.fst).Nodup
    rw [ht]
    exact hnd
  · intro q hq
    rw [show s2.tasks = s.tasks from ht] at hq
    exact hsv q hq
  · intro σ hσ
    show s2.counts.get σ = ((countStatus s2.tasks σ : Nat) : Int)
    rw [ht, hc]
    exact hcm σ hσ

theorem StepOK_preserves_TMInv {s1 s2 : TM} (h : StepOK s1 s2)
    (hp : TMInv s1) : TMInv s2 := by
  cases h with
  | add id p hfresh => exact inv_add id p hfresh hp
  | set_status id st hst => exact inv_update_status id st hst hp
  | next_batch =>
    rename_i batch pops heq
    unfold get_next_batch at heq
    obtain ⟨-, ht, hc, -⟩ := nextBatchLoop_returns_spec _ _ _ _ _ _ _ _ heq
    exact TMInv_of_components ht hc hp
  | retry id => exact inv_retry id hp
  | progress id v => exact inv_progress id v hp
  | report_error id msg hproc => exact inv_update_error id msg hproc hp
  | cleanup => exact inv_cleanup hp

/-- C4 counterexample: after `add_task` and then the public call
`update_task_error` on the still-pending task — a reachable state — the
`pending` counter is 1 while no live record has status `pending`
(the record was forced to `failed` and the `processing` counter went to
`-1`), so the per-status counters do not equal the record counts. -/
theorem C4_counterexample :
    Reachable (update_task_error ((add_task (initTM 10) "t" 1).1) "t" "boom").1 ∧
    ((update_task_error ((add_task (initTM 10) "t" 1).1) "t" "boom").1).counts.pending
      = 1 ∧
    countStatus
      ((update_task_error ((add_task (initTM 10) "t" 1).1) "t" "boom").1).tasks
      "pending" = 0 := by
  refine ⟨⟨10, ?_⟩, by decide, by decide⟩
  exact Relation.ReflTransGen.tail
    (Relation.ReflTransGen.tail Relation.ReflTransGen.refl
      (Step.add (initTM 10) "t" 1 rfl))
    (Step.report_error _ "t" "boom")

/-- C4 (amended): in every state reachable through the public
operations with `update_task_status` restricted to the four status
strings and `update_task_error` invoked only on ids whose record is
currently `processing` (the `StepOK` relation — the uses the spec
prescribes), every maintained per-status counter equals the number of
live records with that status.  Unrestricted `update_task_error` (see
the counterexample) or an out-of-vocabulary status breaks the
invariant. -/
theorem C4_counters_match_guarded (bs : Nat) (s : TM)
    (h : Relation.ReflTransGen StepOK (initTM bs) s) :
    countersMatch s := by
  have hinv : TMInv s := by
    induction h with
    | refl => exact inv_init bs
    | tail h1 h2 ih => exact StepOK_preserves_TMInv h2 ih
  exact hinv.2.2

/-- C4 witness: the amended theorem applied to the concrete state
reached by a fresh submission, a status move to `processing`, and a
completing `get_next_batch` call (the stale queue entry is no longer
pending, so the call returns and re-pushes it). -/
theorem C4_witness :
    countersMatch
      (update_task_status ((add_task (initTM 5) "a" 2).1) "a" "processing").1 :=
  C4_counters_match_guarded 5 _
    (Relation.ReflTransGen.tail
      (Relation.ReflTransGen.tail
        (Relation.ReflTransGen.tail Relation.ReflTransGen.refl
          (StepOK.add (initTM 5) "a" 2 rfl))
        (StepOK.set_status _ "a" "processing" rfl))
      (StepOK.next_batch
        ((update_task_status ((add_task (initTM 5) "a" 2).1) "a" "processing").1)
        ((update_task_status ((add_task (initTM 5) "a" 2).1) "a" "processing").1)
        [] 1 (by decide)))

/-- C3 witness: the amended theorem applied to a concrete pending task. -/
theorem C3_witness :
    (update_task_error ((add_task (initTM 10) "t" 1).1) "t" "boom").2 = .ok true ∧
    (update_task_error ((add_task (initTM 10) "t" 1).1) "t" "boom").1.tasks.lookup "t" =
      some { task_id := "t", priority := 1, status := "failed", error := some "boom" } ∧
    (update_task_error ((add_task (initTM 10) "t" 1).1) "t" "boom").1.counts.processing =
      ((add_task (initTM 10) "t" 1).1).counts.processing - 1 ∧
    (update_task_error ((add_task (initTM 10) "t" 1).1) "t" "boom").1.counts.failed =
      ((add_task (initTM 10) "t" 1).1).counts.failed + 1 ∧
    (update_task_error ((add_task (initTM 10) "t" 1).1) "t" "boom").1.counts.pending =
      ((add_task (initTM 10) "t" 1).1).counts.pending ∧
    (update_task_error ((add_task (initTM 10) "t" 1).1) "t" "boom").1.counts.completed =
      ((add_task (initTM 10) "t" 1).1).counts.completed :=
  (C3_report_error_unchecked ((add_task (initTM 10) "t" 1).1) "t" "boom").2
    { task_id := "t", priority := 1 } (by decide)

end VMZ
